import Mathlib

/-!
Shallow embedding of the Videoflix video-processing subsystem
(videos/models.py, videos/utils.py, videos/tasks.py, videos/functions.py,
videos/signals.py, videos/views.py, videos/api/views.py) and proofs about it.

Modelling conventions:
- Python exceptions are explicit values (`PyExn`); a Python function that can
  raise returns `PyResult` (pure) or `PyState` (stateful: the state at the
  moment the exception escapes is carried along, since database writes made
  before the raise persist).
- The Django ORM is a list-backed store (`DB`); `save()` is modelled as a
  whole-record upsert (in this sequential model the in-memory instance and the
  row always agree on the fields outside `update_fields`, so this is
  behaviourally equivalent to Django's `update_fields` saves).
- External tools (ffmpeg / ffprobe) are oracles supplied in an `Env`:
  each invocation either succeeds, exits non-zero (raising
  `subprocess.CalledProcessError` under `check=True`), or the binary is
  missing (raising `FileNotFoundError`).
- The Redis cache holds at most the single key `video_list_published`; its
  payload is modelled as the list of published video ids in store order
  (`views.video_list` serialises exactly the `is_published=True` queryset).
- Filesystem paths are lists of components relative to the project base
  directory (`HLS_OUTPUT_PATH = media/hls`, `THUMBNAIL_PATH = media/thumbnails`,
  `MEDIA_ROOT = media`); a filesystem is the list of existing (resolved) paths.
-/

namespace Videoflix

/-- Kinds of Python exception relevant to the embedded code. -/
inductive PyExn where
  | calledProcessError
  | valueError
  | fileNotFoundError
  | integrityError
  | http404
  | doesNotExist
deriving DecidableEq, Repr

/-- Result of a pure Python call: normal return or escaped exception. -/
inductive PyResult (α : Type) where
  | ret (a : α)
  | exn (e : PyExn)
deriving DecidableEq, Repr

/-- Result of a stateful Python call; the exception case carries the state at
the moment the exception escapes (earlier database writes persist). -/
inductive PyState (σ : Type) where
  | ret (s : σ)
  | exn (s : σ) (e : PyExn)
deriving DecidableEq, Repr

/-- True when a stateful call returned normally. -/
def PyState.isRet {σ : Type} : PyState σ → Bool
  | .ret _ => true
  | .exn _ _ => false

/-- Outcome of one ffmpeg invocation run with `check=True`. -/
inductive ToolOutcome where
  | ok
  | nonzeroExit
  | toolMissing
deriving DecidableEq, Repr

/-- Outcome of the ffprobe invocation in `get_video_duration`: success carries
the process stdout, the other cases raise. -/
inductive ProbeOutcome where
  | success (stdout : String)
  | nonzeroExit
  | toolMissing
deriving DecidableEq, Repr

/-- Behaviour of the external tools for one pipeline run: the ffprobe call,
the thumbnail ffmpeg call, and the per-tier transcoding ffmpeg call. -/
structure Env where
  probe : ProbeOutcome
  thumbTool : ToolOutcome
  transcode : String → ToolOutcome

/-- One row of videos_video (videos/models.py, class Video). `videoFile` and
`thumbnail` hold the stored relative file names (`None`/empty file ↦ `none`). -/
structure VideoRec where
  id : Nat
  videoFile : Option String
  thumbnail : Option String
  hlsPath : Option String
  duration : Option Int
  isPublished : Bool
  isProcessing : Bool
deriving DecidableEq, Repr

/-- One row of videos_hlsquality (videos/models.py, class HLSQuality). -/
structure HLSQualityRec where
  videoId : Nat
  quality : String
  filePath : String
  bitrate : Int
deriving DecidableEq, Repr

/-- The relational store: video rows and HLS-quality rows. -/
structure DB where
  videos : List VideoRec
  qualities : List HLSQualityRec
deriving DecidableEq, Repr

/-- Video.objects.get(id=i): first row with the given primary key. -/
def getVideo (db : DB) (i : Nat) : Option VideoRec :=
  db.videos.find? (fun v => v.id == i)

/-- Video.objects.get(id=i, is_published=True). -/
def getPublishedVideo (db : DB) (i : Nat) : Option VideoRec :=
  db.videos.find? (fun v => v.id == i && v.isPublished)

/-- video.save(): replace the row with the same primary key (insert if absent). -/
def saveVideo (db : DB) (v : VideoRec) : DB :=
  if db.videos.any (fun w => w.id == v.id) then
    { db with videos := db.videos.map (fun w => if w.id == v.id then v else w) }
  else
    { db with videos := db.videos ++ [v] }

/-- True when a row for (video, quality) already exists; the schema declares
unique_together = ['video', 'quality'] on HLSQuality. -/
def hasQuality (db : DB) (i : Nat) (q : String) : Bool :=
  db.qualities.any (fun r => r.videoId == i && r.quality == q)

/-- HLSQuality.objects.create(...): a plain INSERT. The unique_together
constraint makes it raise IntegrityError when a row for the same
(video, quality) pair already exists; there is no upsert and no prior delete. -/
def createQuality (db : DB) (r : HLSQualityRec) : PyResult DB :=
  if hasQuality db r.videoId r.quality then .exn .integrityError
  else .ret { db with qualities := db.qualities ++ [r] }

/-- System state threaded through one worker run: database plus the single
cache entry `video_list_published` (None when absent/invalidated). -/
structure Sys where
  db : DB
  cache : Option (List Nat)
deriving DecidableEq, Repr

/-- Iteration order of QUALITY_SETTINGS in videos/utils.py (dict insertion
order: 480p, 720p, 1080p). -/
def QUALITIES : List String := ["480p", "720p", "1080p"]

/-- Nominal bitrate persisted per tier: int(settings['bitrate'].replace('k','')). -/
def qualityBitrate (q : String) : Int :=
  if q = "480p" then 1500 else if q = "720p" then 3500
  else if q = "1080p" then 6500 else 0

/-- Relative manifest path stored in HLSQuality.file_path. -/
def manifestRelPath (i : Nat) (q : String) : String :=
  "hls/video_" ++ toString i ++ "/" ++ q ++ ".m3u8"

/-- Relative HLS directory stored in Video.hls_path on success. -/
def hlsRelDir (i : Nat) : String := "hls/video_" ++ toString i ++ "/"

/-- Relative thumbnail path written by generate_thumbnail. -/
def thumbnailRelPath (i : Nat) : String :=
  "thumbnails/video_" ++ toString i ++ ".jpg"

/-- The for-loop body of generate_hls_streams over the remaining tiers:
run ffmpeg for the tier (CalledProcessError on non-zero exit,
FileNotFoundError when the binary is missing), then
HLSQuality.objects.create (IntegrityError when the row exists). Any
exception aborts the remaining tiers. -/
def hlsLoop (env : Env) (videoId : Nat) (db : DB) : List String → PyState DB
  | [] => .ret db
  | q :: rest =>
    match env.transcode q with
    | .ok =>
      match createQuality db ⟨videoId, q, manifestRelPath videoId q, qualityBitrate q⟩ with
      | .ret db2 => hlsLoop env videoId db2 rest
      | .exn e => .exn db e
    | .nonzeroExit => .exn db .calledProcessError
    | .toolMissing => .exn db .fileNotFoundError

/-- Embeds videos/utils.py generate_hls_streams. Sets is_processing=True and
saves before the try block; inside the try it reads video.video_file.path
(ValueError when no file is attached), runs the tier loop, and on full success
sets hls_path and is_processing=False and saves. The except clause catches
only subprocess.CalledProcessError: in that case it logs, sets
is_processing=False, saves, and RETURNS NORMALLY (the error is not re-raised).
Every other exception (ValueError, FileNotFoundError, IntegrityError)
propagates to the caller. -/
def generate_hls_streams (env : Env) (v : VideoRec) (db : DB) :
    PyState (VideoRec × DB) :=
  let v1 := { v with isProcessing := true }
  let db1 := saveVideo db v1
  match v1.videoFile with
  | none => .exn (v1, db1) .valueError
  | some _ =>
    match hlsLoop env v1.id db1 QUALITIES with
    | .ret db2 =>
      let v2 := { v1 with hlsPath := some (hlsRelDir v1.id), isProcessing := false }
      .ret (v2, saveVideo db2 v2)
    | .exn db2 e =>
      if e = .calledProcessError then
        let v2 := { v1 with isProcessing := false }
        .ret (v2, saveVideo db2 v2)
      else
        .exn (v1, db2) e

/-- Embeds videos/utils.py generate_thumbnail. Reads video.video_file.path
(ValueError when no file), runs ffmpeg; on success it unconditionally
overwrites video.thumbnail with 'thumbnails/video_{id}.jpg' and saves. The
except clause catches only subprocess.CalledProcessError (logged, swallowed);
FileNotFoundError from a missing binary propagates. -/
def generate_thumbnail (env : Env) (v : VideoRec) (db : DB) :
    PyState (VideoRec × DB) :=
  match v.videoFile with
  | none => .exn (v, db) .valueError
  | some _ =>
    match env.thumbTool with
    | .ok =>
      let v2 := { v with thumbnail := some (thumbnailRelPath v.id) }
      .ret (v2, saveVideo db v2)
    | .nonzeroExit => .ret (v, db)
    | .toolMissing => .exn (v, db) .fileNotFoundError

/-- True when the character is ASCII whitespace removed by Python str.strip(). -/
def isPySpace (c : Char) : Bool :=
  c = ' ' || c = '\n' || c = '\t' || c = '\r'

/-- Drop leading Python whitespace from a character list. -/
def dropSpaces : List Char → List Char
  | [] => []
  | c :: cs => if isPySpace c then dropSpaces cs else c :: cs

/-- Python str.strip(): whitespace removed from both ends. -/
def stripChars (cs : List Char) : List Char :=
  ((dropSpaces ((dropSpaces cs).reverse)).reverse)

/-- Read a run of decimal digits: value, number of digits consumed, rest. -/
def readDigits : List Char → Nat → Nat → Nat × Nat × List Char
  | [], acc, n => (acc, n, [])
  | c :: cs, acc, n =>
    if c.isDigit then readDigits cs (acc * 10 + (c.toNat - 48)) (n + 1)
    else (acc, n, c :: cs)

/-- Models int(float(s.strip())) for plain decimal numerals (the shape ffprobe
prints for format=duration): optional sign, digits, optional fractional part;
truncation toward zero. Returns none exactly when float() would raise
ValueError on such input (empty string, 'N-slash-A', trailing garbage, a lone
dot). Exponent/inf/nan spellings, which ffprobe never emits for a duration,
are out of scope and also map to none. -/
def pyFloatTrunc (s : String) : Option Int :=
  let cs := stripChars s.toList
  let signed : Bool × List Char :=
    match cs with
    | '-' :: rest => (true, rest)
    | '+' :: rest => (false, rest)
    | _ => (false, cs)
  let neg := signed.1
  let (intPart, nInt, rest) := readDigits signed.2 0 0
  let fracState : Bool × List Char :=
    match rest with
    | '.' :: r =>
      let (_, nFrac, r2) := readDigits r 0 0
      (nFrac > 0 || nInt > 0, r2)
    | r => (nInt > 0, r)
  if fracState.1 && fracState.2 = [] then
    some (if neg then -(intPart : Int) else (intPart : Int))
  else none

/-- Embeds videos/utils.py get_video_duration. Runs ffprobe with check=True:
a non-zero exit raises CalledProcessError, which the except clause catches and
converts to a returned None; a missing binary raises FileNotFoundError, which
is NOT caught; on exit 0 the code computes int(float(stdout.strip())), so an
unparsable stdout raises ValueError, which is NOT caught either. -/
def get_video_duration (probe : ProbeOutcome) : PyResult (Option Int) :=
  match probe with
  | .success out =>
    match pyFloatTrunc out with
    | some n => .ret (some n)
    | none => .exn .valueError
  | .nonzeroExit => .ret none
  | .toolMissing => .exn .fileNotFoundError

/-- The generic failure handler of process_video_task: re-fetch the row and
set is_processing=False; a missing row is ignored (bare except: pass). -/
def markNotProcessing (db : DB) (i : Nat) : DB :=
  match getVideo db i with
  | some v => saveVideo db { v with isProcessing := false }
  | none => db

/-- Embeds videos/tasks.py process_video_task, the function the worker
executes. Fetch the row (DoesNotExist is caught by `except
Video.DoesNotExist: pass`); read video.video_file.path (ValueError on a
missing file); run get_video_duration and save duration; call
generate_thumbnail UNCONDITIONALLY (no check of an existing thumbnail); call
generate_hls_streams; on reaching the end set is_processing=False, save, and
delete the cache key 'video_list_published'. Any exception from a step lands
in `except Exception`, which re-fetches the row and sets is_processing=False
(and does not delete the cache key). The task itself never raises. -/
def process_video_task (env : Env) (sys : Sys) (video_id : Nat) : Sys :=
  match getVideo sys.db video_id with
  | none => sys
  | some video =>
    match video.videoFile with
    | none => { sys with db := markNotProcessing sys.db video_id }
    | some _ =>
      match get_video_duration env.probe with
      | .exn _ => { sys with db := markNotProcessing sys.db video_id }
      | .ret d =>
        let video1 := { video with duration := d }
        let dbA := saveVideo sys.db video1
        match generate_thumbnail env video1 dbA with
        | .exn (_, dbE) _ => { sys with db := markNotProcessing dbE video_id }
        | .ret (video2, dbB) =>
          match generate_hls_streams env video2 dbB with
          | .exn (_, dbE) _ => { sys with db := markNotProcessing dbE video_id }
          | .ret (video3, dbC) =>
            let video4 := { video3 with isProcessing := false }
            { db := saveVideo dbC video4, cache := none }

/-- Embeds videos/functions.py process_video, the alternative pipeline body
kept in the repository (not reached from the signal, which enqueues
process_video_task): identical steps except that generate_thumbnail is
guarded by `if not video.thumbnail`, and no exception is caught here. -/
def process_video (env : Env) (sys : Sys) (video_id : Nat) : PyState Sys :=
  match getVideo sys.db video_id with
  | none => .exn sys .doesNotExist
  | some video =>
    match video.videoFile with
    | none => .exn sys .valueError
    | some _ =>
      match get_video_duration env.probe with
      | .exn e => .exn sys e
      | .ret d =>
        let video1 := { video with duration := d }
        let dbA := saveVideo sys.db video1
        let thumbStep : PyState (VideoRec × DB) :=
          if video1.thumbnail = none then generate_thumbnail env video1 dbA
          else .ret (video1, dbA)
        match thumbStep with
        | .exn (_, dbE) e => .exn { sys with db := dbE } e
        | .ret (video2, dbB) =>
          match generate_hls_streams env video2 dbB with
          | .exn (_, dbE) e => .exn { sys with db := dbE } e
          | .ret (video3, dbC) =>
            let video4 := { video3 with isProcessing := false }
            .ret { db := saveVideo dbC video4, cache := none }

/-- Embeds videos/signals.py trigger_video_processing (post_save receiver):
only when the row was just created AND has an attached source file does it set
is_processing=True, save, and enqueue a job; otherwise it does nothing. The
queue is the list of enqueued video ids. -/
def trigger_video_processing (created : Bool) (inst : VideoRec)
    (sys : Sys) (queue : List Nat) : Sys × List Nat :=
  if created && inst.videoFile.isSome then
    let v := { inst with isProcessing := true }
    ({ sys with db := saveVideo sys.db v }, queue ++ [inst.id])
  else (sys, queue)

/-- A filesystem: the list of existing paths, each a list of components
relative to the project base directory. -/
def FS : Type := List (List String)

/-- Components of the asset's HLS directory
HLS_OUTPUT_PATH/video_{id} = media/hls/video_{id}. -/
def hlsDirComps (i : Nat) : List String :=
  ["media", "hls", "video_" ++ toString i]

/-- One step of OS-level path resolution: '.' keeps the directory, '..' moves
to the parent, any other component descends. -/
def resolveStep (acc : List String) (c : String) : List String :=
  if c = "." then acc
  else if c = ".." then acc.dropLast
  else acc ++ [c]

/-- Resolve a component list the way the operating system does when
os.path.exists / open touch the path. -/
def resolvePath (p : List String) : List String := p.foldl resolveStep []

/-- os.path.exists on the modelled filesystem. -/
def pathExists (fs : FS) (p : List String) : Bool :=
  List.contains fs (resolvePath p)

/-- Embeds videos/views.py get_hls_manifest (videos/api/views.py
get_hls_manifest plus functions.get_video_hls_path build the identical path):
require a published row (DoesNotExist from either a missing or an unpublished
row becomes Http404 'Video not found'), then serve
media/hls/video_{id}/{resolution}.m3u8 when it exists, else Http404. Returns
the resolved path of the file served. -/
def get_hls_manifest (db : DB) (fs : FS) (movie_id : Nat)
    (resolution : String) : PyResult (List String) :=
  match getPublishedVideo db movie_id with
  | none => .exn .http404
  | some _ =>
    let manifest := hlsDirComps movie_id ++ [resolution ++ ".m3u8"]
    if pathExists fs manifest then .ret (resolvePath manifest) else .exn .http404

/-- Embeds videos/views.py get_hls_segment (videos/api/views.py
get_hls_segment plus functions.get_hls_segment_path build the identical
path): require a published row, then serve media/hls/video_{id}/{segment}
when that path exists, else Http404. The resolution argument is accepted from
the URL but never used; the segment string is interpolated into the path with
no validation against HLSQuality rows. The URL pattern binds segment with the
str converter, so a request can never put a '/' into it. Returns the resolved
path of the file served. -/
def get_hls_segment (db : DB) (fs : FS) (movie_id : Nat)
    (resolution segment : String) : PyResult (List String) :=
  match getPublishedVideo db movie_id with
  | none => .exn .http404
  | some _ =>
    let segPath := hlsDirComps movie_id ++ [segment]
    if pathExists fs segPath then .ret (resolvePath segPath) else .exn .http404

/-- The set of segment names the spec says requests must be constrained to:
the exact values recorded in the asset's HLSQuality rows (quality names and
stored manifest paths) together with the fixed tier enumeration. -/
def specAllowedSegment (db : DB) (i : Nat) (s : String) : Bool :=
  db.qualities.any (fun r => r.videoId == i && (r.quality == s || r.filePath == s))
    || List.contains QUALITIES s

/-- Payload cached under 'video_list_published': ids of the rows of the
is_published=True queryset, in store order. -/
def publishedPayload (db : DB) : List Nat :=
  (db.videos.filter (fun v => v.isPublished)).map (fun v => v.id)

/-- Embeds videos/views.py video_list (videos/api/views.py video_list is
identical): return the cached payload when present, otherwise serialise the
published queryset, cache it and return it. -/
def video_list (sys : Sys) : List Nat × Sys :=
  match sys.cache with
  | some data => (data, sys)
  | none =>
    let data := publishedPayload sys.db
    (data, { sys with cache := some data })

/-- Split a relative stored path on '/' into components (accumulator of the
current component, reversed). -/
def splitSlashAux : List Char → List Char → List (List Char)
  | [], acc => [acc.reverse]
  | c :: cs, acc =>
    if c = '/' then acc.reverse :: splitSlashAux cs []
    else splitSlashAux cs (c :: acc)

/-- Components of a stored relative path such as 'thumbnails/video_1.jpg'. -/
def splitSlash (s : String) : List String :=
  (splitSlashAux s.toList []).map (fun l => String.mk l)

/-- Embeds videos/signals.py delete_video_files (pre_delete receiver): remove
the source file (path under MEDIA_ROOT), the thumbnail file (joined with
MEDIA_ROOT), and the whole HLS directory tree media/hls/video_{id} when
hls_path was set. It performs filesystem removals only: no database write and
no cache operation appears in its body. -/
def delete_video_files (v : VideoRec) (fs : FS) : FS :=
  let fs1 := match v.videoFile with
    | some f => List.filter (fun p => p ≠ "media" :: splitSlash f) fs
    | none => fs
  let fs2 := match v.thumbnail with
    | some t => List.filter (fun p => p ≠ "media" :: splitSlash t) fs1
    | none => fs1
  match v.hlsPath with
  | some _ => List.filter (fun p => ¬ List.isPrefixOf (hlsDirComps v.id) p) fs2
  | none => fs2

/-- Deletion of a Video row as the framework executes it: fire the pre_delete
receiver delete_video_files (filesystem removals only), then delete the row
and, by on_delete=CASCADE, its HLSQuality rows. Nothing in this flow touches
the cache entry. -/
def delete_video (sys : Sys) (fs : FS) (i : Nat) : Sys × FS :=
  match getVideo sys.db i with
  | none => (sys, fs)
  | some v =>
    let fs2 := delete_video_files v fs
    ({ db := { videos := List.filter (fun w => w.id ≠ i) sys.db.videos,
               qualities := List.filter (fun r => r.videoId ≠ i) sys.db.qualities },
       cache := sys.cache }, fs2)

/-- Observation of Video.thumbnail after one run of the worker task. -/
def thumbAfterTask (env : Env) (sys : Sys) (i : Nat) : Option (Option String) :=
  (getVideo (process_video_task env sys i).db i).map (fun v => v.thumbnail)

/-- Observation of Video.thumbnail after one run of functions.process_video
(none when that run escaped with an exception). -/
def thumbAfterProcessVideo (env : Env) (sys : Sys) (i : Nat) : Option (Option String) :=
  match process_video env sys i with
  | .ret s => (getVideo s.db i).map (fun v => v.thumbnail)
  | .exn _ _ => none

/-- Fixture: every external tool succeeds; ffprobe prints a 10.52s duration. -/
def envAllOk : Env :=
  { probe := .success "10.52\n", thumbTool := .ok, transcode := fun _ => .ok }

/-- Fixture: ffmpeg fails (non-zero exit) on the second tier only. -/
def envFail720 : Env :=
  { probe := .success "10.0", thumbTool := .ok,
    transcode := fun q => if q = "720p" then .nonzeroExit else .ok }

/-- Fixture: a freshly created video row with an attached source file, as the
post_save receiver leaves it (is_processing already True). -/
def vUploaded : VideoRec :=
  { id := 1, videoFile := some "videos/uploads/a.mp4", thumbnail := none,
    hlsPath := none, duration := none, isPublished := true, isProcessing := true }

/-- Fixture: vUploaded with a manually uploaded thumbnail. -/
def vCustomThumb : VideoRec :=
  { vUploaded with thumbnail := some "thumbnails/custom.jpg" }

/-- Fixture: the store holding just vUploaded, before the worker runs. -/
def dbOne : DB := { videos := [vUploaded], qualities := [] }

/-- Fixture: system state before the worker runs on vUploaded. -/
def sysOne : Sys := { db := dbOne, cache := none }

/-- Fixture: system state before the worker runs on vCustomThumb. -/
def sysCustom : Sys :=
  { db := { videos := [vCustomThumb], qualities := [] }, cache := none }

/-- Fixture: the row vUploaded as it stands after a fully successful run of
process_video_task under envAllOk. -/
def vReadyExpected : VideoRec :=
  { id := 1, videoFile := some "videos/uploads/a.mp4",
    thumbnail := some (thumbnailRelPath 1), hlsPath := some (hlsRelDir 1),
    duration := some 10, isPublished := true, isProcessing := false }

/-- Fixture: a fully processed store - the ready row plus its three
HLSQuality rows. -/
def dbReady : DB :=
  { videos := [vReadyExpected],
    qualities := [⟨1, "480p", manifestRelPath 1 "480p", 1500⟩,
                  ⟨1, "720p", manifestRelPath 1 "720p", 3500⟩,
                  ⟨1, "1080p", manifestRelPath 1 "1080p", 6500⟩] }

/-- Fixture: the on-disk layout matching dbReady (directories and two of the
generated files listed explicitly). -/
def fsReady : FS :=
  [["media", "hls"], ["media", "hls", "video_1"],
   ["media", "hls", "video_1", "480p.m3u8"],
   ["media", "hls", "video_1", "480p_000.ts"]]

/-- Fixture: system state around dbReady with a cold cache. -/
def sysReady : Sys := { db := dbReady, cache := none }

/-- Fixture: the same store with the row unpublished, files still on disk. -/
def dbUnpublished : DB :=
  { dbReady with videos := [{ vReadyExpected with isPublished := false }] }

/-! Helper lemmas about the store operations. -/

/-- A row found by primary key carries that primary key. -/
theorem getVideo_id {db : DB} {i : Nat} {v : VideoRec} (h : getVideo db i = some v) :
    v.id = i := by
  unfold getVideo at h
  have hp := List.find?_some h
  simp only [beq_iff_eq] at hp
  exact hp

/-- Replacing the row with v's key makes v the row found for that key. -/
theorem find?_map_replace (l : List VideoRec) (v : VideoRec)
    (h : l.any (fun w => w.id == v.id) = true) :
    (l.map (fun w => if w.id == v.id then v else w)).find? (fun w => w.id == v.id)
      = some v := by
  induction l with
  | nil => simp at h
  | cons w l ih =>
    simp only [List.map_cons]
    by_cases hw : (w.id == v.id) = true
    · rw [if_pos hw]
      exact List.find?_cons_of_pos _ (by simp)
    · rw [if_neg hw, List.find?_cons_of_neg _ (by simp [hw])]
      exact ih (by simpa [List.any_cons, hw] using h)

/-- Appending v to a list with no row for its key makes v the row found. -/
theorem find?_append_self (l : List VideoRec) (v : VideoRec)
    (h : l.any (fun w => w.id == v.id) = false) :
    (l ++ [v]).find? (fun w => w.id == v.id) = some v := by
  induction l with
  | nil => exact List.find?_cons_of_pos _ (by simp)
  | cons w l ih =>
    simp only [List.any_cons, Bool.or_eq_false_iff] at h
    rw [List.cons_append, List.find?_cons_of_neg _ (by simp [h.1])]
    exact ih h.2

/-- After saveVideo, fetching the saved row's key returns the saved row. -/
theorem getVideo_saveVideo (db : DB) (v : VideoRec) :
    getVideo (saveVideo db v) v.id = some v := by
  unfold getVideo saveVideo
  by_cases h : db.videos.any (fun w => w.id == v.id) = true
  · rw [if_pos h]
    exact find?_map_replace _ _ h
  · rw [if_neg h]
    exact find?_append_self _ _ (by simpa using h)

/-- Fetching a key the failure handler found nothing under changes nothing. -/
theorem markNotProcessing_none {db : DB} {i : Nat} (hg : getVideo db i = none) :
    markNotProcessing db i = db := by
  unfold markNotProcessing
  rw [hg]

/-- When the key is present the failure handler saves the row unprocessed. -/
theorem markNotProcessing_some {db : DB} {i : Nat} {w : VideoRec}
    (hg : getVideo db i = some w) :
    markNotProcessing db i = saveVideo db { w with isProcessing := false } := by
  unfold markNotProcessing
  rw [hg]

/-- Whatever row the failure handler leaves under key i is not processing. -/
theorem markNotProcessing_not_processing {db : DB} {i : Nat} {v : VideoRec}
    (h : getVideo (markNotProcessing db i) i = some v) : v.isProcessing = false := by
  cases hg : getVideo db i with
  | none =>
    rw [markNotProcessing_none hg, hg] at h
    cases h
  | some w =>
    rw [markNotProcessing_some hg] at h
    have hid0 : w.id = i := getVideo_id hg
    have hid : ({ w with isProcessing := false } : VideoRec).id = i := hid0
    rw [← hid] at h
    rw [getVideo_saveVideo db { w with isProcessing := false }] at h
    injection h with h2
    rw [← h2]

/-- A normal return of generate_thumbnail preserves the row's primary key. -/
theorem generate_thumbnail_ret_id {env : Env} {v v2 : VideoRec} {db db2 : DB}
    (h : generate_thumbnail env v db = .ret (v2, db2)) : v2.id = v.id := by
  unfold generate_thumbnail at h
  split at h
  · cases h
  · split at h
    · dsimp only at h
      injection h with h2
      injection h2 with h3 h4
      rw [← h3]
    · injection h with h2
      injection h2 with h3 h4
      rw [← h3]
    · cases h

/-- A normal return of generate_hls_streams preserves the row's primary key. -/
theorem generate_hls_streams_ret_id {env : Env} {v v2 : VideoRec} {db db2 : DB}
    (h : generate_hls_streams env v db = .ret (v2, db2)) : v2.id = v.id := by
  unfold generate_hls_streams at h
  dsimp only at h
  split at h
  · cases h
  · split at h
    · injection h with h2
      injection h2 with h3 h4
      rw [← h3]
    · split at h
      · injection h with h2
        injection h2 with h3 h4
        rw [← h3]
      · cases h

/-! C1 -/

/-- C1: for every environment of tool outcomes and every starting state,
a run of the worker task process_video_task leaves the processed row (if it
still exists) with is_processing = False - it is never left stuck in the
transient Processing state, whether the run succeeded or a step raised. -/
theorem pipeline_ends_not_processing (env : Env) (sys : Sys) (i : Nat) (v : VideoRec)
    (h : getVideo (process_video_task env sys i).db i = some v) :
    v.isProcessing = false := by
  unfold process_video_task at h
  split at h
  · rename_i hg
    rw [hg] at h
    cases h
  · rename_i video hg
    dsimp only at h
    split at h
    · exact markNotProcessing_not_processing h
    · split at h
      · exact markNotProcessing_not_processing h
      · rename_i d hd
        split at h
        · exact markNotProcessing_not_processing h
        · rename_i video2 dbB ht
          split at h
          · exact markNotProcessing_not_processing h
          · rename_i video3 dbC hh
            have hid : ({ video3 with isProcessing := false } : VideoRec).id = i := by
              have h1 := generate_hls_streams_ret_id hh
              have h2 := generate_thumbnail_ret_id ht
              have h3 := getVideo_id hg
              show video3.id = i
              rw [h1]
              exact h2.trans h3
            rw [← hid] at h
            rw [getVideo_saveVideo dbC { video3 with isProcessing := false }] at h
            injection h with h2
            rw [← h2]

/-- Witness for C1: evaluated on a concrete all-success run. -/
theorem pipeline_ends_not_processing_witness :
    getVideo (process_video_task envAllOk sysOne 1).db 1 = some vReadyExpected ∧
    vReadyExpected.isProcessing = false :=
  ⟨by decide, pipeline_ends_not_processing envAllOk sysOne 1 vReadyExpected (by decide)⟩

/-! C2 -/

/-- C2: evaluated where ffmpeg fails on the second tier (envFail720): the
tier loop does abort (only the 480p descriptor is persisted) but, contrary to
the claim and to the function's own docstring ('Raises:
subprocess.CalledProcessError'), generate_hls_streams catches the error and
returns normally, so the caller takes its success path: the run ends with the
cache invalidated exactly as a fully successful run would, instead of the
asset being marked Failed rather than Ready. -/
theorem transcode_failure_swallowed_not_failed :
    (generate_hls_streams envFail720 vUploaded dbOne).isRet = true ∧
    (process_video_task envFail720 { db := dbOne, cache := some [1, 2] } 1).cache = none ∧
    ((process_video_task envFail720 { db := dbOne, cache := some [1, 2] } 1).db.qualities.map
      (fun r => r.quality)) = ["480p"] := by decide

/-! C3 -/

/-- C3: evaluated on a complete re-run of the pipeline after a successful
run: HLSQuality.objects.create for the first tier hits the unique_together
constraint and raises IntegrityError (there is no upsert and no prior
deletion), so the second run lands in the failure handler - its cache entry
is left in place (the success-path invalidation is never reached) and no
descriptor row was upserted or deleted. -/
theorem rerun_raises_uniqueness_violation :
    createQuality (process_video_task envAllOk sysOne 1).db
        ⟨1, "480p", manifestRelPath 1 "480p", 1500⟩ = .exn .integrityError ∧
    (process_video_task envAllOk ((video_list (process_video_task envAllOk sysOne 1)).2) 1).cache
      = some [1] ∧
    (process_video_task envAllOk ((video_list (process_video_task envAllOk sysOne 1)).2) 1).db.qualities
      = (process_video_task envAllOk sysOne 1).db.qualities := by decide

/-! C4 -/

/-- C4 counterexample: populate the listing cache, delete the only video
(its row is gone afterwards), and read the listing again: the payload still
references the deleted id 1, because nothing in the deletion path touched
the cache key. -/
theorem delete_leaves_stale_listing :
    ((video_list ((delete_video ((video_list sysReady).2) fsReady 1).1)).1).contains 1 = true ∧
    getVideo ((delete_video ((video_list sysReady).2) fsReady 1).1).db 1 = none := by decide

/-- C4 amended: deleting a VideoAsset never invalidates the published-listing
cache key - the deletion flow (pre_delete file cleanup plus row removal with
cascade) leaves the cache entry exactly as it was. -/
theorem delete_video_preserves_cache (sys : Sys) (fs : FS) (i : Nat) :
    ((delete_video sys fs i).1).cache = sys.cache := by
  unfold delete_video
  split <;> rfl

/-! C5 -/

/-- C5 counterexample: on a fully processed published asset, the segment
request with name '..' is accepted by get_hls_segment (the parent directory
exists), although '..' is none of the values recorded in the HLSQuality rows
nor a tier name, and the served path media/hls resolves outside the asset's
own directory media/hls/video_1. -/
theorem segment_names_not_constrained_escape :
    get_hls_segment dbReady fsReady 1 "480p" ".." = .ret ["media", "hls"] ∧
    specAllowedSegment dbReady 1 ".." = false ∧
    List.isPrefixOf (hlsDirComps 1) ["media", "hls"] = false := by decide

/-- The directory component video_{id} is a normal name, not '.' or '..'. -/
theorem videoDirComp_ne_dots (i : Nat) :
    ("video_" ++ toString i) ≠ "." ∧ ("video_" ++ toString i) ≠ ".." := by
  constructor
  · intro h
    have hlen := congrArg String.length h
    rw [String.length_append] at hlen
    have e1 : "video_".length = 6 := rfl
    have e2 : ".".length = 1 := rfl
    rw [e1, e2] at hlen
    omega
  · intro h
    have hlen := congrArg String.length h
    rw [String.length_append] at hlen
    have e1 : "video_".length = 6 := rfl
    have e2 : "..".length = 2 := rfl
    rw [e1, e2] at hlen
    omega

/-- The asset directory contains no '.' or '..' components, so it resolves
to itself. -/
theorem resolvePath_hlsDirComps (i : Nat) :
    resolvePath (hlsDirComps i) = hlsDirComps i := by
  have hd := videoDirComp_ne_dots i
  simp [resolvePath, hlsDirComps, resolveStep, hd.1, hd.2]

/-- Appending a normal component descends into the resolved directory. -/
theorem resolvePath_append_normal (l : List String) (c : String)
    (hdot : c ≠ ".") (hdd : c ≠ "..") :
    resolvePath (l ++ [c]) = resolvePath l ++ [c] := by
  unfold resolvePath
  rw [List.foldl_append]
  simp [resolveStep, hdot, hdd]

/-- C5 amended: the code does not validate segment names against the
RenditionDescriptor rows; the only guard is the URL pattern's str converter,
which keeps '/' out of the segment. Under that constraint every accepted
segment that is a normal component (not '.' or '..') is served from directly
inside the asset's own HLS directory; the remaining names '.' and '..' make
the checked path resolve to the asset directory itself or its parent (a
directory, not a descriptor file), as the counterexample shows for '..'. -/
theorem segment_single_component_contained (db : DB) (fs : FS) (i : Nat)
    (res seg : String) (p : List String)
    (hslash : List.contains seg.toList '/' = false)
    (hdot : seg ≠ ".") (hdd : seg ≠ "..")
    (h : get_hls_segment db fs i res seg = .ret p) :
    p = hlsDirComps i ++ [seg] := by
  unfold get_hls_segment at h
  split at h
  · cases h
  · dsimp only at h
    split at h
    · injection h with h2
      rw [← h2, resolvePath_append_normal _ _ hdot hdd, resolvePath_hlsDirComps]
    · cases h

/-- Witness for C5's amended theorem at a concrete accepted request. -/
theorem segment_single_component_contained_witness :
    List.contains ("480p_000.ts".toList) '/' = false ∧
    (["media", "hls", "video_1", "480p_000.ts"] : List String)
      = hlsDirComps 1 ++ ["480p_000.ts"] :=
  ⟨by decide,
   segment_single_component_contained dbReady fsReady 1 "480p" "480p_000.ts"
     ["media", "hls", "video_1", "480p_000.ts"]
     (by decide) (by decide) (by decide) (by decide)⟩

/-! C6 -/

/-- C6: evaluated on an asset whose thumbnail was supplied at upload time
(sysCustom): the worker task process_video_task calls generate_thumbnail
unconditionally and the pre-set thumbnail field is overwritten with the
generated thumbnails/video_1.jpg; the repository's unused alternative
pipeline functions.process_video, which carries the `if not video.thumbnail`
guard the claim describes, preserves the uploaded thumbnail on the same
input. -/
theorem thumbnail_regenerated_despite_upload :
    thumbAfterTask envAllOk sysCustom 1 = some (some "thumbnails/video_1.jpg") ∧
    thumbAfterProcessVideo envAllOk sysCustom 1 = some (some "thumbnails/custom.jpg") := by
  decide

/-! C7 -/

/-- C7: when every row under the requested id is unpublished (in particular
when the single existing row is unpublished), both gateway operations answer
Http404 regardless of which files exist on disk, and the response value is
exactly the one produced for a store that does not contain the asset at all. -/
theorem unpublished_indistinguishable_not_found (db : DB) (fs : FS) (i : Nat)
    (res seg : String)
    (h : ∀ v ∈ db.videos, v.id = i → v.isPublished = false) :
    get_hls_manifest db fs i res = .exn .http404 ∧
    get_hls_segment db fs i res seg = .exn .http404 ∧
    get_hls_manifest db fs i res = get_hls_manifest ⟨[], []⟩ fs i res ∧
    get_hls_segment db fs i res seg = get_hls_segment ⟨[], []⟩ fs i res seg := by
  have hnone : List.find? (fun v => v.id == i && v.isPublished) db.videos = none := by
    apply List.find?_eq_none.mpr
    intro x hx
    intro hx2
    simp only [Bool.and_eq_true, beq_iff_eq] at hx2
    have := h x hx hx2.1
    rw [this] at hx2
    exact Bool.false_ne_true hx2.2
  refine ⟨?_, ?_, ?_, ?_⟩ <;>
    simp [get_hls_manifest, get_hls_segment, hnone, getPublishedVideo]

/-- Witness for C7 on a concrete unpublished asset whose files exist. -/
theorem unpublished_indistinguishable_not_found_witness :
    (∀ v ∈ dbUnpublished.videos, v.id = 1 → v.isPublished = false) ∧
    get_hls_manifest dbUnpublished fsReady 1 "480p" = .exn .http404 :=
  ⟨by decide,
   (unpublished_indistinguishable_not_found dbUnpublished fsReady 1 "480p"
     "480p_000.ts" (by decide)).1⟩

/-! C8 -/

/-- C8: evaluated at the failing input - ffprobe exits 0 but prints an
unparsable duration ('N/A' or an empty string): get_video_duration raises
ValueError past the component instead of returning the documented None. The
claimed behaviour does hold for a non-zero exit (None), a parsable output
(whole seconds, rounded toward zero), and a missing binary (raises). -/
theorem duration_unparsable_output_raises :
    get_video_duration (.success "N/A") = .exn .valueError ∧
    get_video_duration (.success "") = .exn .valueError ∧
    get_video_duration .nonzeroExit = .ret none ∧
    get_video_duration (.success "10.52\n") = .ret (some 10) ∧
    get_video_duration .toolMissing = .exn .fileNotFoundError := by decide

/-! C9 -/

/-- C9: the segment-serving operation is insensitive to the resolution path
parameter: for every store, filesystem, asset id and segment name, any two
resolution values produce the identical response, because the served path is
built from the asset id and the segment name only. -/
theorem segment_serving_ignores_resolution (db : DB) (fs : FS) (i : Nat)
    (res res2 seg : String) :
    get_hls_segment db fs i res seg = get_hls_segment db fs i res2 seg := rfl

/-! C10 -/

/-- C10: the post_save receiver is inert except on creation with a source
file: whenever the save is an update of an existing row, or the created row
has no attached file, it neither enqueues a job nor touches any state. -/
theorem post_save_only_created_with_file (created : Bool) (inst : VideoRec)
    (sys : Sys) (queue : List Nat)
    (h : created = false ∨ inst.videoFile = none) :
    trigger_video_processing created inst sys queue = (sys, queue) := by
  rcases h with h | h <;> simp [trigger_video_processing, h]

/-- Witness for C10: an update (created = false) of a row with a file. -/
theorem post_save_only_created_with_file_witness :
    (false = false ∨ vUploaded.videoFile = none) ∧
    trigger_video_processing false vUploaded sysReady [] = (sysReady, []) :=
  ⟨Or.inl rfl,
   post_save_only_created_with_file false vUploaded sysReady [] (Or.inl rfl)⟩

end Videoflix
